import Mathlib

/-!
Verification of the Meetup GraphQL documentation generator
(`docs/generate_schema.py` and `docs/generate_docs.py`).

The Python sources are shallowly embedded below.  Python strings are `String`,
Python `None`-or-string values are `Option String`, and dictionary fields that
may be absent, `null`, or a string are the three-state `PyStrVal`.  Record
dictionaries (`dict`) are modelled as association lists / structures whose
fields mirror exactly the keys the source accesses.
-/

/-- Python `None`-or-string value rendered inside an f-string:
`f"{x}"` shows `None` for the `None` value and the string itself otherwise. -/
def pyFormatOpt : Option String → String
  | none => "None"
  | some s => s

/-- Python `name or inner` where both operands are `None`-or-string:
a non-empty string is truthy and wins, otherwise the right operand results. -/
def pyOrOpt : Option String → Option String → Option String
  | some s, i => if s = "" then i else some s
  | none, i => i

/-- A GraphQL type-reference value as consumed by `unwrap_type`
(`generate_schema.py`).  It is either Python `None` (`null`) or a dict
with keys `kind`, `name` (string or `null`) and `ofType` (again a
reference, possibly `null`/absent — both behave as `None` via `.get`). -/
inductive TypeRef where
  | null
  | node (kind : Option String) (name : Option String) (ofType : TypeRef)
deriving DecidableEq

/-- Embedding of `unwrap_type` (`generate_schema.py`, lines 81–93):

```python
def unwrap_type(t):
    if t is None:
        return None
    kind = t.get("kind")
    name = t.get("name")
    inner = unwrap_type(t.get("ofType"))
    if kind == "NON_NULL":
        return f"{inner}!"
    if kind == "LIST":
        return f"[{inner}]"
    return name or inner
``` -/
def unwrap_type : TypeRef → Option String
  | .null => none
  | .node kind name ofType =>
    let inner := unwrap_type ofType
    if kind = some "NON_NULL" then some (pyFormatOpt inner ++ "!")
    else if kind = some "LIST" then some ("[" ++ pyFormatOpt inner ++ "]")
    else pyOrOpt name inner

/-- A wrapper modifier of a type reference, per the specification of the
signature resolver. -/
inductive Modifier where
  | nonNull
  | list
deriving DecidableEq

/-- Spec-side fold step: `LIST` wraps the current string in `[ ]`,
`NON_NULL` appends a trailing `!`. -/
def applyModifier : Modifier → String → String
  | .nonNull, s => s ++ "!"
  | .list, s => "[" ++ s ++ "]"

/-- Spec-side reference definition of the canonical signature: the modifier
chain (listed outermost first) folded onto the leaf name from innermost to
outermost. -/
def spec_fold_signature (mods : List Modifier) (leaf : String) : String :=
  mods.foldr applyModifier leaf

/-- Builds the type-reference value denoted by a modifier chain (outermost
first) around a named leaf, in the shape the introspection data uses. -/
def chainToTypeRef (mods : List Modifier) (leaf : String) : TypeRef :=
  match mods with
  | [] => .node (some "SCALAR") (some leaf) .null
  | .nonNull :: rest => .node (some "NON_NULL") none (chainToTypeRef rest leaf)
  | .list :: rest => .node (some "LIST") none (chainToTypeRef rest leaf)

/-- Opening-bracket part contributed by a modifier chain: one `[` per `LIST`
modifier, in chain order. -/
def modsOpen : List Modifier → String
  | [] => ""
  | .list :: rest => "[" ++ modsOpen rest
  | .nonNull :: rest => modsOpen rest

/-- Closing part contributed by a modifier chain: `]` for each `LIST` and `!`
for each `NON_NULL`, innermost first. -/
def modsClose : List Modifier → String
  | [] => ""
  | .list :: rest => modsClose rest ++ "]"
  | .nonNull :: rest => modsClose rest ++ "!"

theorem spec_fold_signature_decomp (mods : List Modifier) (leaf : String) :
    spec_fold_signature mods leaf = modsOpen mods ++ leaf ++ modsClose mods := by
  induction mods with
  | nil => simp [spec_fold_signature, modsOpen, modsClose]
  | cons m rest ih =>
    cases m <;>
      simp [spec_fold_signature, applyModifier, modsOpen, modsClose,
        spec_fold_signature] at ih ⊢ <;>
      simp [ih, String.append_assoc]

theorem unwrap_chain_spec (mods : List Modifier) (leaf : String) (h : leaf ≠ "") :
    unwrap_type (chainToTypeRef mods leaf) = some (spec_fold_signature mods leaf) := by
  induction mods with
  | nil =>
    simp [chainToTypeRef, unwrap_type, pyOrOpt, h, spec_fold_signature]
  | cons m rest ih =>
    cases m <;>
      simp [chainToTypeRef, unwrap_type, ih, pyFormatOpt, spec_fold_signature,
        applyModifier]

/-- Python prefix test: `pat` is an initial run of `s`. -/
def leadsWith : List Char → List Char → Bool
  | [], _ => true
  | _ :: _, [] => false
  | p :: ps, c :: cs => p == c && leadsWith ps cs

/-- Scanning loop of Python `str.replace` for a non-empty pattern `p :: ps`:
replaces every non-overlapping occurrence, left to right.  The fuel argument
is an upper bound on the number of scan steps; `pyReplace` passes the string
length, which always suffices. -/
def replaceGo (p : Char) (ps rep : List Char) : Nat → List Char → List Char
  | _, [] => []
  | 0, l => l
  | fuel + 1, c :: cs =>
    if c == p && leadsWith ps cs then
      rep ++ replaceGo p ps rep fuel (cs.drop ps.length)
    else
      c :: replaceGo p ps rep fuel cs

/-- Python `s.replace(pat, rep)`: every non-overlapping occurrence of `pat`
is replaced by `rep`, left to right.  An empty pattern inserts `rep` at
every character boundary, as Python does. -/
def pyReplace (s pat rep : String) : String :=
  match pat.toList with
  | [] => ⟨rep.toList ++ s.toList.foldr (fun c acc => c :: rep.toList ++ acc) []⟩
  | p :: ps => ⟨replaceGo p ps rep.toList s.toList.length s.toList⟩

/-- A bracket/bang signature-modifier character (the class `[\[\]!]`). -/
def isModChar (c : Char) : Bool := c == '[' || c == ']' || c == '!'

/-- Python `re.sub(r"[\[\]!]", "", t)`: drops every modifier character. -/
def stripMods (t : String) : String := ⟨t.toList.filter (fun c => !isModChar c)⟩

/-- Three-state value of an optional text entry of a record dictionary: the
key may be absent, present with JSON `null`, or present with a string. -/
inductive PyStrVal where
  | absent
  | null
  | str (s : String)
deriving DecidableEq

/-- Python `d.get(key, '')` rendered inside an f-string: an absent key falls
back to `''`, a `null` value renders as `None`, a string renders as itself. -/
def PyStrVal.getEmpty : PyStrVal → String
  | .absent => ""
  | .null => "None"
  | .str s => s

/-- Python truthiness of `d.get(key)`: only a non-empty string is truthy. -/
def PyStrVal.truthy : PyStrVal → Bool
  | .absent => false
  | .null => false
  | .str s => !(s == "")

/-- An argument record as consumed by `render_args` (keys `name`, `type`,
`description`, `defaultValue`).  `type` is accessed directly (`a["type"]`)
and its value may be JSON `null` (when `unwrap_type` returned `None`).
Input-field records read by the `input` branch of `generate_section` have
exactly the same shape and row rendering. -/
structure Arg where
  name : String
  type : Option String
  description : PyStrVal
  defaultValue : PyStrVal
deriving DecidableEq

/-- A field record of an object/interface type (keys `name`, `type`,
`description`, `args`).  A falsy `args` entry (absent, `null`, or `[]`)
behaves identically at every read site, so falsy collapses to `[]`. -/
structure FieldRec where
  name : String
  type : Option String
  description : PyStrVal
  args : List Arg
deriving DecidableEq

/-- An enum-value record (keys `name`, `description`). -/
structure EnumValue where
  name : String
  description : PyStrVal
deriving DecidableEq

/-- A loaded record dictionary as accessed by `generate_docs.py` (a query or
a type).  Every optional key is read with `.get`, so falsy list values
collapse to `[]`; `possibleTypes` keeps only the `name` entry the code
reads, which may be `null`. -/
structure Obj where
  kind : Option String
  description : PyStrVal
  args : List Arg
  returnType : Option String
  fields : List FieldRec
  inputFields : List Arg
  values : List EnumValue
  possibleTypes : List (Option String)
deriving DecidableEq

/-- Dictionary lookup (`k in d` / `d[k]`) over an association list with the
first binding winning; Python dict keys are unique. -/
def alookup {α : Type} (k : String) : List (String × α) → Option α
  | [] => none
  | (k', v) :: rest => if k' == k then some v else alookup k rest

/-- The fixed `kind_map` of `format_type` (lines 54–61). -/
def kind_map : List (String × String) :=
  [("OBJECT", "type"), ("INPUT_OBJECT", "input"), ("ENUM", "enum"),
   ("SCALAR", "scalar"), ("UNION", "union"), ("INTERFACE", "interface")]

/-- Section anchor `f"{kind}-{name}"` (lines 63, 88, 204). -/
def anchor (cat name : String) : String := cat ++ "-" ++ name

/-- Argument-subsection anchor `f"{section_id}-{field_name}-args"` relative
to an already-built section id (lines 108, 128). -/
def sub_anchor (section_id fieldName : String) : String :=
  section_id ++ "-" ++ fieldName ++ "-args"

/-- Full argument-subsection anchor `"<category>-<typeName>-<fieldName>-args"`. -/
def args_anchor (cat tyName fieldName : String) : String :=
  sub_anchor (anchor cat tyName) fieldName

/-- Embedding of `format_type` (`generate_docs.py`, lines 48–64):

```python
def format_type(t, types):
    if not t:
        return "Unknown"
    base = re.sub(r"[\[\]!]", "", t)
    if base in types:
        kind = types[base].get("kind", "OBJECT")
        prefix = kind_map.get(kind, "type")
        return t.replace(base, f"<a href='#{prefix}-{base}'>{base}</a>")
    return t
```

`t` is `None`-or-string; `if not t` also catches the empty string. -/
def format_type (t : Option String) (types : List (String × Obj)) : String :=
  match t with
  | none => "Unknown"
  | some s =>
    if s == "" then "Unknown"
    else
      let base := stripMods s
      match alookup base types with
      | none => s
      | some obj =>
        let kind := obj.kind.getD "OBJECT"
        let pfx := (alookup kind kind_map).getD "type"
        pyReplace s base ("<a href='#" ++ anchor pfx base ++ "'>" ++ base ++ "</a>")

/-- One `<tr>` of an argument/input-field table (`render_args` loop body,
lines 75–79, and the input branch, lines 141–146). -/
def render_arg_row (types : List (String × Obj)) (a : Arg) : String :=
  "<tr><td>" ++ a.name ++ "</td>" ++ "<td>" ++ format_type a.type types ++ "</td>" ++
  "<td>" ++ a.description.getEmpty ++ "</td>" ++ "<td>" ++ a.defaultValue.getEmpty ++ "</td></tr>"

/-- Embedding of `render_args` (lines 67–82). -/
def render_args (args : List Arg) (types : List (String × Obj)) : String :=
  if args.isEmpty then "<p>No arguments</p>"
  else
    String.intercalate "\n"
      ("<table><tr><th>Name</th><th>Type</th><th>Description</th><th>Default</th></tr>"
        :: args.map (render_arg_row types) ++ ["</table>"])

/-- Field-table row of the object (`kind == "type"`) branch (lines 104–119):
the name cell links to the argument subsection exactly when the field's
`args` entry is truthy. -/
def field_row (section_id : String) (types : List (String × Obj)) (f : FieldRec) : String :=
  if !f.args.isEmpty then
    "<tr><td><a href='#" ++ sub_anchor section_id f.name ++ "'>" ++ f.name ++ "</a></td>" ++
    "<td>" ++ format_type f.type types ++ "</td>" ++
    "<td>" ++ f.description.getEmpty ++ "</td></tr>"
  else
    "<tr><td>" ++ f.name ++ "</td>" ++
    "<td>" ++ format_type f.type types ++ "</td>" ++
    "<td>" ++ f.description.getEmpty ++ "</td></tr>"

/-- Field-table row of the interface branch (lines 177–183): always plain,
never linked, regardless of the field's arguments. -/
def interface_field_row (types : List (String × Obj)) (f : FieldRec) : String :=
  "<tr><td>" ++ f.name ++ "</td>" ++
  "<td>" ++ format_type f.type types ++ "</td>" ++
  "<td>" ++ f.description.getEmpty ++ "</td></tr>"

/-- The argument-subsection loop of the object branch (lines 122–130), with
its `gen_args` flag controlling the single `<h3>Arguments</h3>` heading. -/
def arg_subsections (section_id : String) (types : List (String × Obj)) :
    Bool → List FieldRec → List String
  | _, [] => []
  | genArgs, f :: fs =>
    if !f.args.isEmpty then
      (if !genArgs then ["<h3>Arguments</h3>"] else []) ++
        ("<h4 id='" ++ sub_anchor section_id f.name ++ "'>" ++ f.name ++ "</h4>")
        :: render_args f.args types
        :: arg_subsections section_id types true fs
    else arg_subsections section_id types genArgs fs

/-- The HTML fragments one item contributes inside `generate_section`
(lines 87–185): the `<h2>` anchor heading, the optional description
paragraph, and the kind-specific block. -/
def item_html (kind : String) (types : List (String × Obj)) (name : String) (obj : Obj) :
    List String :=
  let section_id := anchor kind name
  ["<h2 id='" ++ section_id ++ "'>" ++ name ++ "</h2>"] ++
  (if obj.description.truthy then ["<p>" ++ obj.description.getEmpty ++ "</p>"] else []) ++
  (if kind == "query" then
    ["<h3>Arguments</h3>", render_args obj.args types, "<h3>Response</h3>",
     "<p>" ++ format_type obj.returnType types ++ "</p>"]
  else if kind == "type" then
    (if !obj.fields.isEmpty then
      ("<h3>Fields</h3><table><tr><th>Name</th><th>Type</th><th>Description</th></tr>"
        :: obj.fields.map (field_row section_id types) ++ ["</table>"]) ++
      arg_subsections section_id types false obj.fields ++ ["<hr/>"]
    else [])
  else if kind == "input" then
    (if !obj.inputFields.isEmpty then
      "<h3>Input Fields</h3><table><tr><th>Name</th><th>Type</th><th>Description</th><th>Default</th></tr>"
        :: obj.inputFields.map (render_arg_row types) ++ ["</table>"]
    else [])
  else if kind == "enum" then
    (if !obj.values.isEmpty then
      "<h3>Values</h3><table><tr><th>Name</th><th>Description</th></tr>"
        :: obj.values.map (fun v =>
            "<tr><td>" ++ v.name ++ "</td><td>" ++ v.description.getEmpty ++ "</td></tr>")
        ++ ["</table>"]
    else [])
  else if kind == "scalar" then
    ["<p>Scalar type — usually built-in (String, Int, Boolean, etc.)</p>"]
  else if kind == "union" then
    (if !obj.possibleTypes.isEmpty then
      "<h3>Possible Types</h3><ul>"
        :: obj.possibleTypes.map (fun pt => "<li>" ++ format_type pt types ++ "</li>")
        ++ ["</ul>"]
    else [])
  else if kind == "interface" then
    (if !obj.fields.isEmpty then
      "<h3>Fields</h3><table><tr><th>Name</th><th>Type</th><th>Description</th></tr>"
        :: obj.fields.map (interface_field_row types) ++ ["</table>"]
    else [])
  else [])

/-- Embedding of `generate_section` (lines 85–186): the `<h1>` group heading
followed by every item's fragments, joined with newlines. -/
def generate_section (title : String) (items : List (String × Obj))
    (types : List (String × Obj)) (kind : String) : String :=
  String.intercalate "\n"
    (("<h1 id='" ++ kind ++ "'>" ++ title ++ "</h1>")
      :: items.flatMap (fun p => item_html kind types p.1 p.2))

/-- The `grouped` dictionary of `build_html` (lines 190–197): for each of the
six known kinds the types carrying that kind tag, in insertion order; a type
whose kind is not one of the six lands in no group. -/
def grouped (types : List (String × Obj)) (kind : String) : List (String × Obj) :=
  types.filter (fun p => p.2.kind == some kind)

/-- Embedding of `sidebar_section` (lines 199–206). -/
def sidebar_section (label : String) (kind : String) (items : List (String × Obj)) : String :=
  String.intercalate "\n"
    (("<div class='sidebar-section'><div class='section-header' onclick='toggleSection(this)'>"
        ++ label ++ "</div><ul class='collapsed'>")
      :: items.map (fun p => "<li><a href='#" ++ anchor kind p.1 ++ "'>" ++ p.1 ++ "</a></li>")
      ++ ["</ul></div>"])

/-- The sidebar fragment list of `build_html` (lines 208–216). -/
def sidebar_parts (queries types : List (String × Obj)) : List String :=
  ["<div id='sidebar'>",
   sidebar_section "Queries" "query" queries,
   sidebar_section "Types" "type" (grouped types "OBJECT"),
   sidebar_section "Inputs" "input" (grouped types "INPUT_OBJECT"),
   sidebar_section "Enums" "enum" (grouped types "ENUM"),
   sidebar_section "Scalars" "scalar" (grouped types "SCALAR"),
   sidebar_section "Interfaces" "interface" (grouped types "INTERFACE"),
   sidebar_section "Unions" "union" (grouped types "UNION"),
   "</div>"]

/-- The content fragment list of `build_html` (lines 218–230), in the fixed
source order: queries, objects, input objects, enums, scalars, interfaces,
unions. -/
def content_parts (queries types : List (String × Obj)) : List String :=
  ["<div id='content'>",
   generate_section "Queries" queries types "query",
   generate_section "Types" (grouped types "OBJECT") types "type",
   generate_section "Inputs" (grouped types "INPUT_OBJECT") types "input",
   generate_section "Enums" (grouped types "ENUM") types "enum",
   generate_section "Scalars" (grouped types "SCALAR") types "scalar",
   generate_section "Interfaces" (grouped types "INTERFACE") types "interface",
   generate_section "Unions" (grouped types "UNION") types "union",
   "</div>"]

/-- The static `style` block of `build_html` (lines 232–258), verbatim. -/
def style_text : String :=
  "\n    <style>\n"
  ++ "    body \x7b margin:0; font-family:Arial, sans-serif; \x7d\n"
  ++ "    #sidebar \x7b\n"
  ++ "      position:fixed; left:0; top:0; bottom:0;\n"
  ++ "      width:250px; background:#f8f9fa;\n"
  ++ "      border-right:1px solid #ddd;\n"
  ++ "      padding:10px; overflow:auto;\n"
  ++ "    \x7d\n"
  ++ "    .sidebar-section \x7b margin-bottom:15px; \x7d\n"
  ++ "    .section-header \x7b font-weight:bold; cursor:pointer; padding:5px; background:#e9ecef; border:1px solid #ddd; \x7d\n"
  ++ "    .section-header:hover \x7b background:#dee2e6; \x7d\n"
  ++ "    .collapsed \x7b display:none; \x7d\n"
  ++ "    .expanded \x7b display:block; \x7d\n"
  ++ "    #sidebar ul \x7b list-style:none; padding-left:10px; margin:0; \x7d\n"
  ++ "    #sidebar li \x7b margin:4px 0; \x7d\n"
  ++ "    #sidebar a \x7b text-decoration:none; color:#333; \x7d\n"
  ++ "    #sidebar a.active \x7b font-weight:bold; color:#007bff; \x7d\n"
  ++ "    #content \x7b margin-left:270px; padding:30px; background:#fff; \x7d\n"
  ++ "    table \x7b border-collapse:collapse; width:100%; margin-bottom:20px; \x7d\n"
  ++ "    th, td \x7b border:1px solid #ddd; padding:8px; text-align:left; \x7d\n"
  ++ "    th \x7b background:#f1f1f1; \x7d\n"
  ++ "    h1 \x7b margin-top:40px; border-bottom:2px solid #ddd; padding-bottom:5px; \x7d\n"
  ++ "    h2 \x7b margin-top:30px; color:#2c3e50; \x7d\n"
  ++ "    h3 \x7b margin-top:20px; \x7d\n"
  ++ "    </style>\n    "

/-- The static `script` block of `build_html` (lines 260–279), verbatim. -/
def script_text : String :=
  "\n    <script>\n"
  ++ "    function toggleSection(header) \x7b\n"
  ++ "      const ul = header.nextElementSibling;\n"
  ++ "      ul.classList.toggle('collapsed');\n"
  ++ "      ul.classList.toggle('expanded');\n"
  ++ "    \x7d\n"
  ++ "    window.addEventListener(\"scroll\", () => \x7b\n"
  ++ "      let fromTop = window.scrollY + 10;\n"
  ++ "      document.querySelectorAll(\"#sidebar a\").forEach(link => \x7b\n"
  ++ "        let section = document.querySelector(link.getAttribute(\"href\"));\n"
  ++ "        if (section && section.offsetTop <= fromTop && section.offsetTop + section.offsetHeight > fromTop) \x7b\n"
  ++ "          link.classList.add(\"active\");\n"
  ++ "        \x7d else \x7b\n"
  ++ "          link.classList.remove(\"active\");\n"
  ++ "        \x7d\n"
  ++ "      \x7d);\n"
  ++ "    \x7d);\n"
  ++ "    </script>\n    "

/-- Embedding of `build_html` (lines 189–281): the document shell around the
joined sidebar and content fragments. -/
def build_html (queries types : List (String × Obj)) : String :=
  "<!DOCTYPE html><html><head><meta charset='utf-8'><title>GraphQL Docs</title>"
    ++ style_text ++ "</head><body>" ++ String.join (sidebar_parts queries types)
    ++ String.join (content_parts queries types) ++ script_text ++ "</body></html>"

/-- Lexicographic code-point comparison of character lists — how Python
compares strings. -/
def charsLe : List Char → List Char → Bool
  | [], _ => true
  | _ :: _, [] => false
  | a :: as, b :: bs =>
    if a.toNat < b.toNat then true
    else if b.toNat < a.toNat then false
    else charsLe as bs

/-- Python string order `a <= b`, the order `sorted(os.listdir(folder))`
sorts by. -/
def strLe (a b : String) : Prop := charsLe a.toList b.toList = true

instance : DecidableRel strLe :=
  fun a b => inferInstanceAs (Decidable (charsLe a.toList b.toList = true))

theorem charToNat_inj {a b : Char} (h : a.toNat = b.toNat) : a = b :=
  Char.ext (UInt32.ext h)

theorem charsLe_refl (l : List Char) : charsLe l l = true := by
  induction l with
  | nil => rfl
  | cons a as ih => simp [charsLe, ih]

theorem charsLe_total (a b : List Char) : charsLe a b = true ∨ charsLe b a = true := by
  induction a generalizing b with
  | nil => left; rfl
  | cons x xs ih =>
    cases b with
    | nil => right; rfl
    | cons y ys =>
      rcases Nat.lt_trichotomy x.toNat y.toNat with h | h | h
      · left; simp [charsLe, h]
      · rcases ih ys with h' | h' <;> [left; right] <;>
          simp [charsLe, h, h', Nat.lt_irrefl]
      · right; simp [charsLe, h, Nat.lt_asymm h]

theorem charsLe_trans {a b c : List Char} (h₁ : charsLe a b = true)
    (h₂ : charsLe b c = true) : charsLe a c = true := by
  induction a generalizing b c with
  | nil => rfl
  | cons x xs ih =>
    cases b with
    | nil => simp [charsLe] at h₁
    | cons y ys =>
      cases c with
      | nil => simp [charsLe] at h₂
      | cons z zs =>
        simp only [charsLe] at h₁ h₂ ⊢
        split at h₁
        · split at h₂
          · rw [if_pos (by omega)]
          · split at h₂
            · simp at h₂
            · rw [if_pos (by omega)]
        · split at h₁
          · simp at h₁
          · split at h₂
            · rw [if_pos (by omega)]
            · split at h₂
              · simp at h₂
              · rw [if_neg (by omega), if_neg (by omega)]
                exact ih h₁ h₂

theorem charsLe_antisymm : ∀ {a b : List Char},
    charsLe a b = true → charsLe b a = true → a = b
  | [], [], _, _ => rfl
  | [], _ :: _, _, h₂ => by simp [charsLe] at h₂
  | _ :: _, [], h₁, _ => by simp [charsLe] at h₁
  | x :: xs, y :: ys, h₁, h₂ => by
    simp only [charsLe] at h₁ h₂
    split at h₁
    · rename_i hxy
      rw [if_neg (Nat.lt_asymm hxy), if_pos hxy] at h₂
      simp at h₂
    · split at h₁
      · simp at h₁
      · rename_i hyx hxy
        have hx : x = y :=
          charToNat_inj (Nat.le_antisymm (Nat.le_of_not_lt hxy) (Nat.le_of_not_lt hyx))
        subst hx
        rw [if_neg hxy, if_neg hxy] at h₂
        rw [charsLe_antisymm h₁ h₂]

theorem stringToList_inj {a b : String} (h : a.toList = b.toList) : a = b := by
  cases a; cases b; exact congrArg String.mk h

instance : IsTotal String strLe := ⟨fun a b => charsLe_total a.toList b.toList⟩

instance : IsTrans String strLe := ⟨fun _ _ _ h₁ h₂ => charsLe_trans h₁ h₂⟩

instance : IsAntisymm String strLe :=
  ⟨fun _ _ h₁ h₂ => stringToList_inj (charsLe_antisymm h₁ h₂)⟩

instance : IsRefl String strLe := ⟨fun a => charsLe_refl a.toList⟩

/-- Python `fname.endswith(".json")`. -/
def endsJson (f : String) : Bool := leadsWith ".json".toList.reverse f.toList.reverse

/-- Python `fname.replace(".json", "")` — the dictionary key under which a
loaded record is stored. -/
def stripJsonExt (f : String) : String := pyReplace f ".json" ""

/-- A parsed JSON value as traversed by `clean_html`: a string leaf, an
array, an object, or any other scalar (number, boolean, `null`), which
`clean_html` passes through unchanged. -/
inductive Value where
  | str (s : String)
  | arr (l : List Value)
  | obj (l : List (String × Value))
  | other

/-- Whitespace characters of the regex class `\s` (ASCII range). -/
def pySpace (c : Char) : Bool :=
  c == ' ' || c == '\t' || c == '\n' || c == '\r' || c == '\x0b' || c == '\x0c'

/-- The substitution text `<a href="\1" target="_blank">\1</a>` for one
matched URL. -/
def urlLink (url : List Char) : List Char :=
  "<a href=\"".toList ++ url ++ "\" target=\"_blank\">".toList ++ url ++ "</a>".toList

/-- Scanning loop of `url_pattern.sub` for `(https?://[^\s]+)`: at each
position the earliest match is replaced, its `[^\s]+` tail taken greedily,
and scanning resumes after it.  Fuel bounds the scan; the string length
always suffices. -/
def subUrlsGo : Nat → List Char → List Char
  | _, [] => []
  | 0, l => l
  | fuel + 1, c :: cs =>
    let s := c :: cs
    let schemeLen : Nat :=
      if leadsWith "http://".toList s then 7
      else if leadsWith "https://".toList s then 8
      else 0
    if schemeLen == 0 then c :: subUrlsGo fuel cs
    else
      let rest := s.drop schemeLen
      let run := rest.takeWhile (fun d => !pySpace d)
      if run.isEmpty then c :: subUrlsGo fuel cs
      else
        urlLink (s.take schemeLen ++ run) ++
          subUrlsGo fuel (rest.dropWhile (fun d => !pySpace d))

/-- Embedding of the text-leaf cleaning helper of `generate_docs.py`
lines 16–21: URL linkification, then
newline-to-`<br>` rewriting; falsy (empty) text short-circuits to `""`. -/
def clean_html_text (text : String) : String :=
  if text == "" then ""
  else pyReplace ⟨subUrlsGo text.toList.length text.toList⟩ "\n" "<br>"

mutual
/-- Embedding of `clean_html` (lines 24–31): rewrites every string leaf with
`clean_html_text`, recursing through arrays and objects; the two mapping
helpers below spell out the `list` and `dict` comprehensions. -/
def clean_html : Value → Value
  | .str s => .str (clean_html_text s)
  | .arr l => .arr (clean_html_arr l)
  | .obj l => .obj (clean_html_obj l)
  | .other => .other

/-- The `list` branch's elementwise map of `clean_html`. -/
def clean_html_arr : List Value → List Value
  | [] => []
  | v :: vs => clean_html v :: clean_html_arr vs

/-- The `dict` branch's value-wise map of `clean_html`. -/
def clean_html_obj : List (String × Value) → List (String × Value)
  | [] => []
  | (k, v) :: kvs => (k, clean_html v) :: clean_html_obj kvs
end

/-- Embedding of `load_json_files` (lines 34–45).  The input directory is a
set of named files: `listing` is `os.listdir(folder)` in enumeration order
and `content f` the parse outcome of file `f` (`none` when `json.load`
raises, in which case that record is skipped with a warning). -/
def load_json_files (listing : List String) (content : String → Option Value) :
    List (String × Value) :=
  ((listing.insertionSort strLe).filter (fun f => endsJson f)).filterMap
    (fun f => (content f).map (fun v => (stripJsonExt f, clean_html v)))

/-- The warning log of `load_json_files`: one entry per `.json` file whose
parse raised, in scan order (line 44). -/
def load_warnings (listing : List String) (content : String → Option Value) :
    List String :=
  ((listing.insertionSort strLe).filter (fun f => endsJson f)).filter
    (fun f => (content f).isNone)

/-- The loader skeleton of `load_json_files` specialized to the typed record
view: `content f` composes `json.load` and `clean_html` into the record
dictionary `Obj` that `build_html` consumes. -/
def load_records (listing : List String) (content : String → Option Obj) :
    List (String × Obj) :=
  ((listing.insertionSort strLe).filter (fun f => endsJson f)).filterMap
    (fun f => (content f).map (fun v => (stripJsonExt f, v)))

/-- Key order on record-dictionary entries (by name, Python string order). -/
def keyLe (p q : String × Obj) : Prop := strLe p.1 q.1

instance : DecidableRel keyLe :=
  fun p q => inferInstanceAs (Decidable (strLe p.1 q.1))

/-- Spec-side explicit per-group sort: members ordered by name ascending. -/
def sortByName (l : List (String × Obj)) : List (String × Obj) :=
  l.insertionSort keyLe

/-- Spec-side sidebar: same shape and group order as `sidebar_parts`, with
every group explicitly sorted by member name. -/
def spec_sidebar_parts (queries types : List (String × Obj)) : List String :=
  ["<div id='sidebar'>",
   sidebar_section "Queries" "query" (sortByName queries),
   sidebar_section "Types" "type" (sortByName (grouped types "OBJECT")),
   sidebar_section "Inputs" "input" (sortByName (grouped types "INPUT_OBJECT")),
   sidebar_section "Enums" "enum" (sortByName (grouped types "ENUM")),
   sidebar_section "Scalars" "scalar" (sortByName (grouped types "SCALAR")),
   sidebar_section "Interfaces" "interface" (sortByName (grouped types "INTERFACE")),
   sidebar_section "Unions" "union" (sortByName (grouped types "UNION")),
   "</div>"]

/-- Spec-side content: the specification's fixed group order — queries, then
object, input-object, enum, scalar, interface, union — with every group
explicitly sorted by member name. -/
def spec_content_parts (queries types : List (String × Obj)) : List String :=
  ["<div id='content'>",
   generate_section "Queries" (sortByName queries) types "query",
   generate_section "Types" (sortByName (grouped types "OBJECT")) types "type",
   generate_section "Inputs" (sortByName (grouped types "INPUT_OBJECT")) types "input",
   generate_section "Enums" (sortByName (grouped types "ENUM")) types "enum",
   generate_section "Scalars" (sortByName (grouped types "SCALAR")) types "scalar",
   generate_section "Interfaces" (sortByName (grouped types "INTERFACE")) types "interface",
   generate_section "Unions" (sortByName (grouped types "UNION")) types "union",
   "</div>"]

/-- Spec-side document assembly: the `build_html` shell around the
explicitly ordered sidebar and content. -/
def assemble_spec (queries types : List (String × Obj)) : String :=
  "<!DOCTYPE html><html><head><meta charset='utf-8'><title>GraphQL Docs</title>"
    ++ style_text ++ "</head><body>" ++ String.join (spec_sidebar_parts queries types)
    ++ String.join (spec_content_parts queries types) ++ script_text ++ "</body></html>"

/-- ASCII alphanumeric characters — the documented precondition on type,
field and query names. -/
def isAlnumChar (c : Char) : Bool :=
  (decide (48 ≤ c.toNat) && decide (c.toNat ≤ 57)) ||
  (decide (65 ≤ c.toNat) && decide (c.toNat ≤ 90)) ||
  (decide (97 ≤ c.toNat) && decide (c.toNat ≤ 122))

/-- A name made only of ASCII alphanumeric characters. -/
def alnumName (s : String) : Bool := s.toList.all isAlnumChar

theorem isAlnumChar_toNat {c : Char} (h : isAlnumChar c = true) : 47 < c.toNat := by
  simp only [isAlnumChar, Bool.or_eq_true, Bool.and_eq_true, decide_eq_true_eq] at h
  omega

theorem isAlnumChar_ne_of_toNat {c d : Char} (h : isAlnumChar c = true)
    (hd : d.toNat < 48) : c ≠ d := by
  intro he
  subst he
  exact absurd (isAlnumChar_toNat h) (by omega)

theorem isAlnumChar_not_mod {c : Char} (h : isAlnumChar c = true) : isModChar c = false := by
  simp only [isAlnumChar, Bool.or_eq_true, Bool.and_eq_true, decide_eq_true_eq] at h
  have h91 : c.toNat ≠ 91 := by omega
  have h93 : c.toNat ≠ 93 := by omega
  have h33 : c.toNat ≠ 33 := by omega
  simp only [isModChar, Bool.or_eq_false_iff, beq_eq_false_iff_ne, ne_eq]
  refine ⟨⟨fun he => ?_, fun he => ?_⟩, fun he => ?_⟩ <;> subst he
  · exact h91 (by decide)
  · exact h93 (by decide)
  · exact h33 (by decide)

theorem isAlnumChar_ne_dash {c : Char} (h : isAlnumChar c = true) : c ≠ '-' :=
  isAlnumChar_ne_of_toNat h (by decide)

theorem isAlnumChar_ne_dot {c : Char} (h : isAlnumChar c = true) : c ≠ '.' :=
  isAlnumChar_ne_of_toNat h (by decide)

theorem leadsWith_append (l r : List Char) : leadsWith l (l ++ r) = true := by
  induction l with
  | nil => rfl
  | cons c cs ih => simp [leadsWith, ih]

/-- Fuel irrelevance: any two sufficient fuels compute the same scan. -/
theorem replaceGo_fuel (p : Char) (ps rep : List Char) :
    ∀ (f₁ f₂ : Nat) (s : List Char), s.length ≤ f₁ → s.length ≤ f₂ →
      replaceGo p ps rep f₁ s = replaceGo p ps rep f₂ s := by
  intro f₁
  induction f₁ with
  | zero =>
    intro f₂ s h₁ _
    have : s = [] := List.eq_nil_of_length_eq_zero (Nat.le_zero.mp h₁)
    subst this
    cases f₂ <;> rfl
  | succ f₁' ih =>
    intro f₂ s h₁ h₂
    cases s with
    | nil => cases f₂ <;> rfl
    | cons c cs =>
      cases f₂ with
      | zero => simp at h₂
      | succ f₂' =>
        simp only [List.length_cons, Nat.succ_le_succ_iff] at h₁ h₂
        simp only [replaceGo]
        by_cases hc : (c == p && leadsWith ps cs) = true
        · rw [if_pos hc, if_pos hc,
            ih f₂' (cs.drop ps.length)
              (by rw [List.length_drop]; omega)
              (by rw [List.length_drop]; omega)]
        · rw [if_neg hc, if_neg hc, ih f₂' cs h₁ h₂]

/-- Scanning a region whose characters all differ from the pattern head
passes it through unchanged. -/
theorem replaceGo_skip (p : Char) (ps rep : List Char) (pre rest : List Char)
    (hpre : ∀ c ∈ pre, c ≠ p) :
    replaceGo p ps rep (pre ++ rest).length (pre ++ rest) =
      pre ++ replaceGo p ps rep rest.length rest := by
  induction pre with
  | nil => rfl
  | cons c pre' ih =>
    have hc : (c == p) = false := beq_eq_false_iff_ne.mpr (hpre c (List.mem_cons_self c pre'))
    simp only [List.cons_append, List.length_cons, replaceGo, hc, Bool.false_and,
      if_neg (Bool.false_ne_true), List.append_eq]
    rw [ih (fun d hd => hpre d (List.mem_cons_of_mem c hd))]

/-- Scanning from an occurrence of the full pattern substitutes it. -/
theorem replaceGo_hit (p : Char) (ps rep : List Char) (rest : List Char) :
    replaceGo p ps rep ((p :: ps) ++ rest).length ((p :: ps) ++ rest) =
      rep ++ replaceGo p ps rep rest.length rest := by
  simp only [List.cons_append, List.length_cons, replaceGo, List.append_eq]
  rw [if_pos (by simp [leadsWith_append] : (p == p && leadsWith ps (ps ++ rest)) = true)]
  rw [List.drop_left]
  exact congrArg (fun l => rep ++ l)
    (replaceGo_fuel p ps rep _ _ rest (by simp) (le_refl _))

theorem toList_ne_nil {name : String} (h : name ≠ "") : name.toList ≠ [] := by
  intro hl
  exact h (stringToList_inj (by rw [hl]; rfl))

theorem ne_empty_of_toList {s : String} {c : Char} {cs : List Char}
    (h : s.toList = c :: cs) : s ≠ "" := by
  intro he
  rw [he] at h
  exact List.noConfusion h

theorem alnumName_mem {s : String} (h : alnumName s = true) :
    ∀ c ∈ s.toList, isAlnumChar c = true := by
  simpa [alnumName, List.all_eq_true] using h

theorem modsOpen_chars (mods : List Modifier) :
    ∀ c ∈ (modsOpen mods).toList, isModChar c = true := by
  induction mods with
  | nil => intro c hc; simp [modsOpen] at hc
  | cons m rest ih =>
    cases m
    · simpa [modsOpen] using ih
    · intro c hc
      simp only [modsOpen, String.toList, String.data_append] at hc
      rcases List.mem_append.mp hc with h | h
      · simp at h; subst h; rfl
      · exact ih c h

theorem modsClose_chars (mods : List Modifier) :
    ∀ c ∈ (modsClose mods).toList, isModChar c = true := by
  induction mods with
  | nil => intro c hc; simp [modsClose] at hc
  | cons m rest ih =>
    cases m
    · intro c hc
      simp only [modsClose, String.toList, String.data_append] at hc
      rcases List.mem_append.mp hc with h | h
      · exact ih c h
      · simp at h; subst h; rfl
    · intro c hc
      simp only [modsClose, String.toList, String.data_append] at hc
      rcases List.mem_append.mp hc with h | h
      · exact ih c h
      · simp at h; subst h; rfl

theorem spec_fold_toList (mods : List Modifier) (name : String) :
    (spec_fold_signature mods name).toList =
      (modsOpen mods).toList ++ name.toList ++ (modsClose mods).toList := by
  rw [spec_fold_signature_decomp]
  simp [String.toList, String.data_append]

/-- Stripping the modifier characters of a canonical signature recovers the
bare leaf name. -/
theorem stripMods_fold (mods : List Modifier) (name : String)
    (hal : alnumName name = true) :
    stripMods (spec_fold_signature mods name) = name := by
  apply stringToList_inj
  show List.filter _ _ = _
  rw [spec_fold_toList, List.filter_append, List.filter_append]
  have hopen : List.filter (fun c => !isModChar c) (modsOpen mods).toList = [] :=
    List.filter_eq_nil_iff.mpr (fun c hc => by simp [modsOpen_chars mods c hc])
  have hclose : List.filter (fun c => !isModChar c) (modsClose mods).toList = [] :=
    List.filter_eq_nil_iff.mpr (fun c hc => by simp [modsClose_chars mods c hc])
  have hname : List.filter (fun c => !isModChar c) name.toList = name.toList :=
    List.filter_eq_self.mpr
      (fun c hc => by simp [isAlnumChar_not_mod (alnumName_mem hal c hc)])
  rw [hopen, hclose, hname]
  simp

/-- Python `replace` substitutes the unique occurrence of the bare name of a
decomposed signature in place, leaving both modifier regions untouched. -/
theorem pyReplace_eq_of_decomp (s name rep : String) (p : Char) (ps : List Char)
    (hl : name.toList = p :: ps) (pre suf : List Char)
    (hs : s.toList = pre ++ name.toList ++ suf)
    (hpre : ∀ c ∈ pre, c ≠ p) (hsuf : ∀ c ∈ suf, c ≠ p) :
    (pyReplace s name rep).toList = pre ++ rep.toList ++ suf := by
  simp only [pyReplace, hl]
  show replaceGo p ps rep.toList s.toList.length s.toList = pre ++ rep.toList ++ suf
  rw [hs, hl]
  have assoc : pre ++ (p :: ps) ++ suf = pre ++ ((p :: ps) ++ suf) := by
    simp [List.append_assoc]
  rw [assoc, replaceGo_skip p ps rep.toList _ _ hpre, replaceGo_hit p ps rep.toList _]
  have hkeep : replaceGo p ps rep.toList suf.length suf = suf := by
    have h := replaceGo_skip p ps rep.toList suf [] hsuf
    simpa [replaceGo] using h
  rw [hkeep]
  simp [List.append_assoc]

/-- Python `replace` on a canonical signature substitutes the bare name in
place. -/
theorem pyReplace_fold (mods : List Modifier) (name rep : String)
    (hne : name ≠ "") (hal : alnumName name = true) :
    pyReplace (spec_fold_signature mods name) name rep =
      modsOpen mods ++ rep ++ modsClose mods := by
  obtain ⟨p, ps, hl⟩ : ∃ p ps, name.toList = p :: ps := by
    cases h : name.toList with
    | nil => exact absurd h (toList_ne_nil hne)
    | cons p ps => exact ⟨p, ps, rfl⟩
  have hp : isAlnumChar p = true :=
    alnumName_mem hal p (by rw [hl]; exact List.mem_cons_self p ps)
  have hpre : ∀ c ∈ (modsOpen mods).toList, c ≠ p := by
    intro c hc he
    have := modsOpen_chars mods c hc
    rw [he, isAlnumChar_not_mod hp] at this
    exact Bool.false_ne_true this
  have hsuf : ∀ c ∈ (modsClose mods).toList, c ≠ p := by
    intro c hc he
    have := modsClose_chars mods c hc
    rw [he, isAlnumChar_not_mod hp] at this
    exact Bool.false_ne_true this
  apply stringToList_inj
  rw [pyReplace_eq_of_decomp (spec_fold_signature mods name) name rep p ps hl
    (modsOpen mods).toList (modsClose mods).toList (spec_fold_toList mods name) hpre hsuf]
  simp [String.toList, String.data_append]

/-- Spec-side category table: object→type, input-object→input, enum→enum,
scalar→scalar, union→union, interface→interface, anything else→type. -/
def spec_category (kind : String) : String :=
  if kind == "OBJECT" then "type"
  else if kind == "INPUT_OBJECT" then "input"
  else if kind == "ENUM" then "enum"
  else if kind == "SCALAR" then "scalar"
  else if kind == "UNION" then "union"
  else if kind == "INTERFACE" then "interface"
  else "type"

theorem kind_map_spec (k : String) :
    (alookup k kind_map).getD "type" = spec_category k := by
  by_cases h1 : "OBJECT" = k
  · subst h1; rfl
  by_cases h2 : "INPUT_OBJECT" = k
  · subst h2; rfl
  by_cases h3 : "ENUM" = k
  · subst h3; rfl
  by_cases h4 : "SCALAR" = k
  · subst h4; rfl
  by_cases h5 : "UNION" = k
  · subst h5; rfl
  by_cases h6 : "INTERFACE" = k
  · subst h6; rfl
  have e1 : ("OBJECT" == k) = false := beq_eq_false_iff_ne.mpr h1
  have e2 : ("INPUT_OBJECT" == k) = false := beq_eq_false_iff_ne.mpr h2
  have e3 : ("ENUM" == k) = false := beq_eq_false_iff_ne.mpr h3
  have e4 : ("SCALAR" == k) = false := beq_eq_false_iff_ne.mpr h4
  have e5 : ("UNION" == k) = false := beq_eq_false_iff_ne.mpr h5
  have e6 : ("INTERFACE" == k) = false := beq_eq_false_iff_ne.mpr h6
  have f1 : (k == "OBJECT") = false := beq_eq_false_iff_ne.mpr (fun he => h1 he.symm)
  have f2 : (k == "INPUT_OBJECT") = false := beq_eq_false_iff_ne.mpr (fun he => h2 he.symm)
  have f3 : (k == "ENUM") = false := beq_eq_false_iff_ne.mpr (fun he => h3 he.symm)
  have f4 : (k == "SCALAR") = false := beq_eq_false_iff_ne.mpr (fun he => h4 he.symm)
  have f5 : (k == "UNION") = false := beq_eq_false_iff_ne.mpr (fun he => h5 he.symm)
  have f6 : (k == "INTERFACE") = false := beq_eq_false_iff_ne.mpr (fun he => h6 he.symm)
  simp [kind_map, alookup, spec_category, e1, e2, e3, e4, e5, e6, f1, f2, f3, f4, f5, f6]

theorem spec_fold_ne_empty (mods : List Modifier) (name : String) (hne : name ≠ "") :
    spec_fold_signature mods name ≠ "" := by
  intro he
  have h := spec_fold_toList mods name
  rw [he] at h
  have h' : (modsOpen mods).toList ++ name.toList ++ (modsClose mods).toList = [] := h.symm
  exact toList_ne_nil hne (List.append_eq_nil.mp (List.append_eq_nil.mp h').1).2

/-- C7: the signature resolver folds the collected modifier chain onto the
leaf name from innermost to outermost, `LIST` wrapping the current string in
`[` `]` and `NON_NULL` appending a trailing `!`; in particular the reference
`NON_NULL(LIST(NON_NULL(leaf "ID")))` resolves to exactly `"[ID!]!"` (see
the witness). -/
theorem C7_resolver_fold (mods : List Modifier) (leaf : String) (h : leaf ≠ "") :
    unwrap_type (chainToTypeRef mods leaf) = some (spec_fold_signature mods leaf) :=
  unwrap_chain_spec mods leaf h

/-- Witness for C7 at the chain of the claim: the result is `"[ID!]!"`. -/
theorem C7_resolver_fold_witness :
    unwrap_type (chainToTypeRef [Modifier.nonNull, Modifier.list, Modifier.nonNull] "ID") =
      some "[ID!]!" := by
  have h := C7_resolver_fold [Modifier.nonNull, Modifier.list, Modifier.nonNull] "ID"
    (by decide)
  simpa [spec_fold_signature, applyModifier] using h

/-- C1, counterexample: a `NON_NULL` wrapper whose inner reference is `null`
resolves to the partial signature `"None!"` — a modifier emitted around a
missing leaf — and not to the sentinel `"Unknown"`, contradicting the claim
that a `null` at any point of the chain degrades the whole signature to
`"Unknown"`. -/
theorem C1_null_inner_counterexample :
    format_type (unwrap_type (TypeRef.node (some "NON_NULL") none TypeRef.null)) [] =
        "None!" ∧
    format_type (unwrap_type (TypeRef.node (some "NON_NULL") none TypeRef.null)) [] ≠
        "Unknown" := by
  constructor
  · decide
  · decide

/-- C1 (amended): for a modifier chain around a non-empty alphanumeric leaf,
stripping `[`, `]`, `!` from the resolver's output yields exactly the leaf
name; a `null` outer reference renders as the sentinel `"Unknown"`; but a
wrapper whose inner chain bottoms out in `null` yields a partial signature
around Python's `None` rendering (`"None!"`), not `"Unknown"`. -/
theorem C1_resolver_strip_and_null :
    (∀ (mods : List Modifier) (leaf : String), leaf ≠ "" → alnumName leaf = true →
        stripMods (pyFormatOpt (unwrap_type (chainToTypeRef mods leaf))) = leaf) ∧
    (∀ types, format_type none types = "Unknown") ∧
    unwrap_type (TypeRef.node (some "NON_NULL") none TypeRef.null) = some "None!" := by
  refine ⟨fun mods leaf hne hal => ?_, fun types => rfl, by decide⟩
  rw [unwrap_chain_spec mods leaf hne]
  exact stripMods_fold mods leaf hal

/-- Witness for C1 (amended) at the chain `LIST(leaf "ID")`. -/
theorem C1_resolver_strip_and_null_witness :
    stripMods (pyFormatOpt (unwrap_type (chainToTypeRef [Modifier.list] "ID"))) = "ID" :=
  C1_resolver_strip_and_null.1 [Modifier.list] "ID" (by decide) (by decide)

/-- C3: for a canonical signature around a non-empty alphanumeric bare name,
the linker replaces exactly the bare-name substring with a link to the
anchor `<category>-<bareName>` — the category given by the fixed table
(OBJECT→type, INPUT_OBJECT→input, ENUM→enum, SCALAR→scalar, UNION→union,
INTERFACE→interface, anything else→type) — leaving every modifier character
in place; when the bare name is absent from the index the signature is
returned unchanged. -/
theorem C3_format_type_links (mods : List Modifier) (name : String)
    (types : List (String × Obj)) (hne : name ≠ "") (hal : alnumName name = true) :
    (∀ obj, alookup name types = some obj →
        format_type (some (spec_fold_signature mods name)) types =
          modsOpen mods ++
            ("<a href='#" ++ anchor (spec_category (obj.kind.getD "OBJECT")) name ++ "'>"
              ++ name ++ "</a>") ++ modsClose mods) ∧
    (alookup name types = none →
        format_type (some (spec_fold_signature mods name)) types =
          spec_fold_signature mods name) := by
  have hbeq : (spec_fold_signature mods name == "") = false :=
    beq_eq_false_iff_ne.mpr (spec_fold_ne_empty mods name hne)
  constructor
  · intro obj hobj
    simp only [format_type, hbeq, Bool.false_eq_true, if_false,
      stripMods_fold mods name hal, hobj]
    rw [kind_map_spec]
    exact pyReplace_fold mods name _ hne hal
  · intro hobj
    simp only [format_type, hbeq, Bool.false_eq_true, if_false,
      stripMods_fold mods name hal, hobj]

/-- Witness for C3: a `LIST`-wrapped enum reference gets linked in place,
and an unknown name passes through unchanged. -/
theorem C3_format_type_links_witness :
    format_type (some (spec_fold_signature [Modifier.list] "Color"))
        [("Color", ⟨some "ENUM", PyStrVal.absent, [], none, [], [], [], []⟩)] =
      "[" ++ ("<a href='#" ++ "enum-Color" ++ "'>" ++ "Color" ++ "</a>") ++ "]" ∧
    format_type (some (spec_fold_signature [Modifier.list] "Color")) [] =
      spec_fold_signature [Modifier.list] "Color" := by
  constructor
  · have h := (C3_format_type_links [Modifier.list] "Color"
      [("Color", ⟨some "ENUM", PyStrVal.absent, [], none, [], [], [], []⟩)]
      (by decide) (by decide)).1
      ⟨some "ENUM", PyStrVal.absent, [], none, [], [], [], []⟩ (by decide)
    simpa [modsOpen, modsClose, anchor, spec_category] using h
  · exact (C3_format_type_links [Modifier.list] "Color" [] (by decide) (by decide)).2 rfl

/-- C6, counterexample: an argument whose `description` and `defaultValue`
keys are present with JSON `null` — the exact form `generate_schema.py`
writes for missing text — renders as cells holding the literal `None`,
not as empty cells. -/
theorem C6_null_text_counterexample :
    render_arg_row [] ⟨"a", some "ID", PyStrVal.null, PyStrVal.null⟩ =
      "<tr><td>a</td><td>ID</td><td>None</td><td>None</td></tr>" ∧
    render_arg_row [] ⟨"a", some "ID", PyStrVal.null, PyStrVal.null⟩ ≠
      "<tr><td>a</td><td>ID</td><td></td><td></td></tr>" :=
  ⟨by decide, by decide⟩

/-- C6 (amended): every argument/input-field row is emitted unconditionally
— one row per record, with a fixed count — and a `description` or
`defaultValue` key that is entirely absent renders as an empty cell; a key
present with JSON `null` (the form the extractor writes for missing text)
instead renders as the literal `None`. -/
theorem C6_missing_text_rows :
    (∀ args types, args ≠ [] →
        render_args args types =
          String.intercalate "\n"
            ("<table><tr><th>Name</th><th>Type</th><th>Description</th><th>Default</th></tr>"
              :: args.map (render_arg_row types) ++ ["</table>"]) ∧
          (args.map (render_arg_row types)).length = args.length) ∧
    (∀ n t types, render_arg_row types ⟨n, t, PyStrVal.absent, PyStrVal.absent⟩ =
        "<tr><td>" ++ n ++ "</td>" ++ "<td>" ++ format_type t types ++ "</td>" ++
        "<td>" ++ "" ++ "</td>" ++ "<td>" ++ "" ++ "</td></tr>") ∧
    (∀ n t types, render_arg_row types ⟨n, t, PyStrVal.null, PyStrVal.null⟩ =
        "<tr><td>" ++ n ++ "</td>" ++ "<td>" ++ format_type t types ++ "</td>" ++
        "<td>" ++ "None" ++ "</td>" ++ "<td>" ++ "None" ++ "</td></tr>") ∧
    (∀ sid types n t, field_row sid types ⟨n, t, PyStrVal.absent, []⟩ =
        "<tr><td>" ++ n ++ "</td>" ++ "<td>" ++ format_type t types ++ "</td>" ++
        "<td>" ++ "" ++ "</td></tr>") := by
  refine ⟨fun args types hne => ⟨?_, by simp⟩, fun n t types => rfl, fun n t types => rfl,
    fun sid types n t => ?_⟩
  · rw [render_args, if_neg (by simpa using hne)]
  · rw [field_row]
    simp [PyStrVal.getEmpty]

/-- Witness for C6 (amended): a one-argument table with absent optional text
renders its single row with empty description/default cells. -/
theorem C6_missing_text_rows_witness :
    render_args [⟨"a", some "ID", PyStrVal.absent, PyStrVal.absent⟩] [] =
      String.intercalate "\n"
        ("<table><tr><th>Name</th><th>Type</th><th>Description</th><th>Default</th></tr>"
          :: [⟨"a", some "ID", PyStrVal.absent, PyStrVal.absent⟩].map (render_arg_row ([] : List (String × Obj))) ++ ["</table>"]) :=
  (C6_missing_text_rows.1 [⟨"a", some "ID", PyStrVal.absent, PyStrVal.absent⟩] []
    (by decide)).1

/-- An interface field carrying one argument, used to exhibit C2's failure
on interfaces. -/
def exInterfaceField : FieldRec :=
  ⟨"f", some "ID", PyStrVal.absent, [⟨"a", some "ID", PyStrVal.absent, PyStrVal.absent⟩]⟩

/-- An interface descriptor whose single field has one argument. -/
def exInterfaceObj : Obj :=
  ⟨some "INTERFACE", PyStrVal.absent, [], none, [exInterfaceField], [], [], []⟩

/-- Substring scan: does `pat` occur anywhere in `s`? -/
def subScanGo (pat : List Char) : List Char → Bool
  | [] => leadsWith pat []
  | c :: cs => leadsWith pat (c :: cs) || subScanGo pat cs

/-- Substring occurrence test on strings. -/
def hasSub (s sub : String) : Bool := subScanGo sub.toList s.toList

/-- C2, counterexample: an interface descriptor with a one-argument field is
rendered with a plain, unlinked name cell and no argument subsection — the
interface branch of `generate_section` never links field names and never
emits `-args` anchors, so the claim fails for interfaces. -/
theorem C2_interface_counterexample :
    exInterfaceField.args ≠ [] ∧
    item_html "interface" [] "I" exInterfaceObj =
      ["<h2 id='interface-I'>I</h2>",
       "<h3>Fields</h3><table><tr><th>Name</th><th>Type</th><th>Description</th></tr>",
       "<tr><td>f</td><td>ID</td><td></td></tr>",
       "</table>"] ∧
    hasSub (generate_section "Interfaces" [("I", exInterfaceObj)] [] "interface")
      "interface-I-f-args" = false ∧
    hasSub (generate_section "Interfaces" [("I", exInterfaceObj)] [] "interface")
      "<a href" = false := by
  exact ⟨by decide, by decide, by decide, by decide⟩

theorem arg_subsections_true (sid : String) (types : List (String × Obj)) :
    ∀ fields : List FieldRec, arg_subsections sid types true fields =
      (fields.filter (fun f => !f.args.isEmpty)).flatMap
        (fun f => ["<h4 id='" ++ sub_anchor sid f.name ++ "'>" ++ f.name ++ "</h4>",
                   render_args f.args types]) := by
  intro fields
  induction fields with
  | nil => rfl
  | cons f fs ih =>
    by_cases hf : f.args.isEmpty
    · simp [arg_subsections, hf, List.filter_cons, ih]
    · simp [arg_subsections, hf, List.filter_cons, ih]

theorem arg_subsections_spec (sid : String) (types : List (String × Obj)) :
    ∀ fields : List FieldRec, arg_subsections sid types false fields =
      (if fields.any (fun f => !f.args.isEmpty) then ["<h3>Arguments</h3>"] else []) ++
        (fields.filter (fun f => !f.args.isEmpty)).flatMap
          (fun f => ["<h4 id='" ++ sub_anchor sid f.name ++ "'>" ++ f.name ++ "</h4>",
                     render_args f.args types]) := by
  intro fields
  induction fields with
  | nil => rfl
  | cons f fs ih =>
    by_cases hf : f.args.isEmpty
    · simp [arg_subsections, hf, List.filter_cons, List.any_cons, ih]
    · simp [arg_subsections, hf, List.filter_cons, List.any_cons, arg_subsections_true]

/-- C2 (amended): in an object (`kind "type"`) descriptor, a field with
empty `args` renders as a plain name cell while a field with arguments
renders as a name cell linked to `<section_id>-<field>-args`; the argument
subsections — one `<h4>` anchor plus argument table per argument-bearing
field, in field-declaration order, headed by a single `<h3>Arguments</h3>`
— follow the field table; an interface descriptor instead renders every
field plainly and emits no argument subsection at all. -/
theorem C2_object_field_args_rendering :
    (∀ sid types (f : FieldRec), f.args = [] →
        field_row sid types f =
          "<tr><td>" ++ f.name ++ "</td>" ++
          "<td>" ++ format_type f.type types ++ "</td>" ++
          "<td>" ++ f.description.getEmpty ++ "</td></tr>") ∧
    (∀ sid types (f : FieldRec), f.args ≠ [] →
        field_row sid types f =
          "<tr><td><a href='#" ++ sub_anchor sid f.name ++ "'>" ++ f.name ++ "</a></td>" ++
          "<td>" ++ format_type f.type types ++ "</td>" ++
          "<td>" ++ f.description.getEmpty ++ "</td></tr>") ∧
    (∀ sid types fields, arg_subsections sid types false fields =
        (if fields.any (fun f => !f.args.isEmpty) then ["<h3>Arguments</h3>"] else []) ++
          (fields.filter (fun f => !f.args.isEmpty)).flatMap
            (fun f => ["<h4 id='" ++ sub_anchor sid f.name ++ "'>" ++ f.name ++ "</h4>",
                       render_args f.args types])) ∧
    (∀ types name (obj : Obj), obj.fields ≠ [] →
        item_html "type" types name obj =
          ["<h2 id='" ++ anchor "type" name ++ "'>" ++ name ++ "</h2>"] ++
          (if obj.description.truthy then ["<p>" ++ obj.description.getEmpty ++ "</p>"]
           else []) ++
          ("<h3>Fields</h3><table><tr><th>Name</th><th>Type</th><th>Description</th></tr>"
            :: obj.fields.map (field_row (anchor "type" name) types) ++ ["</table>"]) ++
          arg_subsections (anchor "type" name) types false obj.fields ++ ["<hr/>"]) ∧
    (∀ types name (obj : Obj), item_html "interface" types name obj =
        ["<h2 id='" ++ anchor "interface" name ++ "'>" ++ name ++ "</h2>"] ++
        (if obj.description.truthy then ["<p>" ++ obj.description.getEmpty ++ "</p>"]
         else []) ++
        (if !obj.fields.isEmpty then
          "<h3>Fields</h3><table><tr><th>Name</th><th>Type</th><th>Description</th></tr>"
            :: obj.fields.map (interface_field_row types) ++ ["</table>"]
        else [])) := by
  refine ⟨fun sid types f hf => ?_, fun sid types f hf => ?_,
    arg_subsections_spec, fun types name obj hne => ?_, fun types name obj => ?_⟩
  · rw [field_row, if_neg (by simp [hf])]
  · rw [field_row, if_pos (by simpa using hf)]
  · rw [item_html]
    have hq : (("type" : String) == "query") = false := by decide
    have ht : (("type" : String) == "type") = true := by decide
    have hne' : (!obj.fields.isEmpty) = true := by simpa using hne
    simp [hq, ht, hne', List.append_assoc]
  · rfl

/-- Witness for C2 (amended): an argument-bearing field's row links to its
`-args` subsection anchor. -/
theorem C2_object_field_args_rendering_witness :
    field_row "type-T" []
        ⟨"f", some "ID", PyStrVal.absent,
          [⟨"a", some "ID", PyStrVal.absent, PyStrVal.absent⟩]⟩ =
      "<tr><td><a href='#type-T-f-args'>f</a></td><td>ID</td><td></td></tr>" := by
  rw [C2_object_field_args_rendering.2.1 "type-T" []
    ⟨"f", some "ID", PyStrVal.absent,
      [⟨"a", some "ID", PyStrVal.absent, PyStrVal.absent⟩]⟩ (by decide)]
  decide

theorem split_on_dash : ∀ (a b x y : List Char),
    (∀ c ∈ a, c ≠ '-') → (∀ c ∈ b, c ≠ '-') →
    a ++ '-' :: x = b ++ '-' :: y → a = b ∧ x = y := by
  intro a
  induction a with
  | nil =>
    intro b x y _ hb h
    cases b with
    | nil => simpa using h
    | cons d b' =>
      simp only [List.nil_append, List.cons_append, List.cons.injEq] at h
      exact absurd h.1.symm (hb d (List.mem_cons_self d b'))
  | cons c a' ih =>
    intro b x y ha hb h
    cases b with
    | nil =>
      simp only [List.cons_append, List.nil_append, List.cons.injEq] at h
      exact absurd h.1 (ha c (List.mem_cons_self c a'))
    | cons d b' =>
      simp only [List.cons_append, List.cons.injEq] at h
      obtain ⟨h1, h2⟩ := h
      obtain ⟨he, hx⟩ := ih b' x y
        (fun e he' => ha e (List.mem_cons_of_mem _ he'))
        (fun e he' => hb e (List.mem_cons_of_mem _ he')) h2
      exact ⟨by rw [h1, he], hx⟩

/-- No `-` character occurs in the string. -/
def dashFree (s : String) : Prop := ∀ c ∈ s.toList, c ≠ '-'

instance (s : String) : Decidable (dashFree s) :=
  inferInstanceAs (Decidable (∀ c ∈ s.toList, c ≠ '-'))

theorem alnum_dashFree {s : String} (h : alnumName s = true) : dashFree s :=
  fun c hc => isAlnumChar_ne_dash (alnumName_mem h c hc)

theorem anchor_toList (cat name : String) :
    (anchor cat name).toList = cat.toList ++ '-' :: name.toList := by
  simp [anchor, String.toList, String.data_append]

theorem args_anchor_toList (cat ty f : String) :
    (args_anchor cat ty f).toList =
      cat.toList ++ '-' :: (ty.toList ++ '-' :: (f.toList ++ '-' :: "args".toList)) := by
  have ha : ("-args" : String).toList = '-' :: "args".toList := rfl
  simp [args_anchor, sub_anchor, anchor, String.toList, String.data_append]

/-- The category prefixes the document's anchor namespace uses. -/
def categories : List String :=
  ["query", "type", "input", "enum", "scalar", "interface", "union"]

theorem categories_dashFree : ∀ c ∈ categories, dashFree c := by decide

/-- C5: under the alphanumeric-names precondition the generated anchors are
collision-free — a section anchor `<category>-<name>` determines its
category and name (so a query and a type sharing a bare name get distinct
anchors), an argument-subsection anchor `<category>-<typeName>-<fieldName>-args`
determines its three components, and bare group-heading anchors, section
anchors and argument anchors never coincide across the three shapes. -/
theorem C5_anchors_unique :
    (∀ c₁ n₁ c₂ n₂, c₁ ∈ categories → c₂ ∈ categories →
        alnumName n₁ = true → alnumName n₂ = true →
        anchor c₁ n₁ = anchor c₂ n₂ → c₁ = c₂ ∧ n₁ = n₂) ∧
    (∀ c₁ t₁ f₁ c₂ t₂ f₂, c₁ ∈ categories → c₂ ∈ categories →
        alnumName t₁ = true → alnumName t₂ = true →
        args_anchor c₁ t₁ f₁ = args_anchor c₂ t₂ f₂ →
        c₁ = c₂ ∧ t₁ = t₂ ∧ f₁ = f₂) ∧
    (∀ c₁ n₁ c₂ t₂ f₂, c₁ ∈ categories → c₂ ∈ categories → alnumName n₁ = true →
        anchor c₁ n₁ ≠ args_anchor c₂ t₂ f₂) ∧
    (∀ c₁ c₂ n₂, c₁ ∈ categories → c₂ ∈ categories → c₁ ≠ anchor c₂ n₂) ∧
    (∀ c₁ c₂ t₂ f₂, c₁ ∈ categories → c₂ ∈ categories → c₁ ≠ args_anchor c₂ t₂ f₂) := by
  refine ⟨?_, ?_, ?_, ?_, ?_⟩
  · intro c₁ n₁ c₂ n₂ hc₁ hc₂ _ _ h
    have h' := congrArg String.toList h
    rw [anchor_toList, anchor_toList] at h'
    obtain ⟨he, hn⟩ := split_on_dash _ _ _ _
      (categories_dashFree c₁ hc₁) (categories_dashFree c₂ hc₂) h'
    exact ⟨stringToList_inj he, stringToList_inj hn⟩
  · intro c₁ t₁ f₁ c₂ t₂ f₂ hc₁ hc₂ ht₁ ht₂ h
    have h' := congrArg String.toList h
    rw [args_anchor_toList, args_anchor_toList] at h'
    obtain ⟨he, hrest⟩ := split_on_dash _ _ _ _
      (categories_dashFree c₁ hc₁) (categories_dashFree c₂ hc₂) h'
    obtain ⟨ht, hrest'⟩ := split_on_dash _ _ _ _
      (alnum_dashFree ht₁) (alnum_dashFree ht₂) hrest
    refine ⟨stringToList_inj he, stringToList_inj ht, stringToList_inj ?_⟩
    exact List.append_cancel_right hrest'
  · intro c₁ n₁ c₂ t₂ f₂ hc₁ hc₂ hn₁ h
    have h' := congrArg String.toList h
    rw [anchor_toList, args_anchor_toList] at h'
    obtain ⟨_, hn⟩ := split_on_dash _ _ _ _
      (categories_dashFree c₁ hc₁) (categories_dashFree c₂ hc₂) h'
    have hmem : '-' ∈ n₁.toList := by
      rw [hn]
      exact List.mem_append_right _ (List.mem_cons_self _ _)
    exact alnum_dashFree hn₁ '-' hmem rfl
  · intro c₁ c₂ n₂ hc₁ hc₂ h
    have h' := congrArg String.toList h
    rw [anchor_toList] at h'
    have hmem : '-' ∈ c₁.toList := by
      rw [h']
      exact List.mem_append_right _ (List.mem_cons_self _ _)
    exact categories_dashFree c₁ hc₁ '-' hmem rfl
  · intro c₁ c₂ t₂ f₂ hc₁ hc₂ h
    have h' := congrArg String.toList h
    rw [args_anchor_toList] at h'
    have hmem : '-' ∈ c₁.toList := by
      rw [h']
      exact List.mem_append_right _ (List.mem_cons_self _ _)
    exact categories_dashFree c₁ hc₁ '-' hmem rfl

/-- Witness for C5: a query and a type sharing the bare name `Foo` get
distinct anchors. -/
theorem C5_anchors_unique_witness :
    anchor "query" "Foo" ≠ anchor "type" "Foo" := fun h =>
  absurd (C5_anchors_unique.1 "query" "Foo" "type" "Foo"
    (by decide) (by decide) (by decide) (by decide) h).1 (by decide)

theorem insertionSort_eq_of_perm {l₁ l₂ : List String} (h : l₁.Perm l₂) :
    l₁.insertionSort strLe = l₂.insertionSort strLe :=
  List.eq_of_perm_of_sorted
    ((List.perm_insertionSort strLe l₁).trans
      (h.trans (List.perm_insertionSort strLe l₂).symm))
    (List.sorted_insertionSort strLe l₁) (List.sorted_insertionSort strLe l₂)

/-- C8: document assembly is deterministic — running the pipeline twice over
the same record files, enumerated by the filesystem in any two orders,
produces byte-identical output. -/
theorem C8_build_deterministic (ql₁ ql₂ tl₁ tl₂ : List String)
    (qc tc : String → Option Obj) (hq : ql₁.Perm ql₂) (ht : tl₁.Perm tl₂) :
    build_html (load_records ql₁ qc) (load_records tl₁ tc) =
      build_html (load_records ql₂ qc) (load_records tl₂ tc) := by
  simp only [load_records, insertionSort_eq_of_perm hq, insertionSort_eq_of_perm ht]

/-- Witness for C8: two enumeration orders of the same two files produce the
same document. -/
theorem C8_build_deterministic_witness :
    build_html (load_records ["a.json", "b.json"] (fun _ => none))
        (load_records [] (fun _ => none)) =
      build_html (load_records ["b.json", "a.json"] (fun _ => none))
        (load_records [] (fun _ => none)) :=
  C8_build_deterministic ["a.json", "b.json"] ["b.json", "a.json"] [] []
    (fun _ => none) (fun _ => none) (by decide) (by decide)

theorem filterMap_orderedInsert_none {β : Type} (g : String → Option β) (a : String)
    (hga : g a = none) :
    ∀ l : List String, (List.orderedInsert strLe a l).filterMap g = l.filterMap g := by
  intro l
  induction l with
  | nil => simp [List.orderedInsert, List.filterMap_cons, hga]
  | cons b l' ih =>
    rw [List.orderedInsert]
    split
    · simp [List.filterMap_cons, hga]
    · simp only [List.filterMap_cons]
      cases g b <;> simp [ih]

theorem insertionSort_middle (bad : String) (l₁ l₂ : List String) :
    (l₁ ++ bad :: l₂).insertionSort strLe =
      List.orderedInsert strLe bad ((l₁ ++ l₂).insertionSort strLe) := by
  have h := insertionSort_eq_of_perm
    (@List.perm_middle String bad l₁ l₂)
  rw [h]
  rfl

theorem load_json_files_eq (listing : List String) (content : String → Option Value) :
    load_json_files listing content =
      (listing.insertionSort strLe).filterMap
        (fun f => if endsJson f then
            (content f).map (fun v => (stripJsonExt f, clean_html v))
          else none) := by
  rw [load_json_files, List.filterMap_filter]

/-- C9: a file whose parse fails is skipped — deleting it from the listing
does not change the loaded dictionary — while every parseable `.json` file
of the listing is loaded; and the malformed file is exactly what the
warning log records.  A single malformed record never aborts the rest. -/
theorem C9_loader_skips_malformed (pre post : List String) (bad : String)
    (content : String → Option Value) (hbad : content bad = none) :
    load_json_files (pre ++ bad :: post) content =
      load_json_files (pre ++ post) content ∧
    (∀ f v, f ∈ pre ++ post → endsJson f = true → content f = some v →
        (stripJsonExt f, clean_html v) ∈ load_json_files (pre ++ bad :: post) content) ∧
    (endsJson bad = true → bad ∈ load_warnings (pre ++ bad :: post) content) := by
  refine ⟨?_, ?_, ?_⟩
  · rw [load_json_files_eq, load_json_files_eq, insertionSort_middle]
    exact filterMap_orderedInsert_none _ bad (by simp [hbad]) _
  · intro f v hf hend hc
    rw [load_json_files_eq]
    refine List.mem_filterMap.mpr ⟨f, ?_, ?_⟩
    · have : f ∈ pre ++ bad :: post := by
        rcases List.mem_append.mp hf with h | h
        · exact List.mem_append_left _ h
        · exact List.mem_append_right _ (List.mem_cons_of_mem _ h)
      exact ((List.perm_insertionSort strLe _).mem_iff).mpr this
    · rw [if_pos hend, hc]
      rfl
  · intro hend
    have hmem : bad ∈ pre ++ bad :: post :=
      List.mem_append_right _ (List.mem_cons_self _ _)
    rw [load_warnings]
    refine List.mem_filter.mpr ⟨List.mem_filter.mpr ⟨?_, hend⟩, by simp [hbad]⟩
    exact ((List.perm_insertionSort strLe _).mem_iff).mpr hmem

/-- Witness for C9: with the middle file unparseable, loading skips exactly
it and the run continues over the other two files. -/
theorem C9_loader_skips_malformed_witness :
    load_json_files (["a.json"] ++ "bad.json" :: ["c.json"])
        (fun f => if f == "bad.json" then none else some (Value.str "x")) =
      load_json_files (["a.json"] ++ ["c.json"])
        (fun f => if f == "bad.json" then none else some (Value.str "x")) :=
  (C9_loader_skips_malformed ["a.json"] ["c.json"] "bad.json"
    (fun f => if f == "bad.json" then none else some (Value.str "x")) (by rfl)).1

/-- The six kind tags `build_html` groups by. -/
def sixKinds : List String :=
  ["OBJECT", "INTERFACE", "ENUM", "SCALAR", "INPUT_OBJECT", "UNION"]

theorem assoc_unique {n : String} {t t' : Obj} {types : List (String × Obj)}
    (hnd : (types.map Prod.fst).Nodup)
    (h1 : (n, t) ∈ types) (h2 : (n, t') ∈ types) : t = t' := by
  induction types with
  | nil => simp at h1
  | cons p rest ih =>
    rw [List.map_cons, List.nodup_cons] at hnd
    rcases List.mem_cons.mp h1 with he1 | hm1 <;> rcases List.mem_cons.mp h2 with he2 | hm2
    · rw [← he1] at he2
      exact (Prod.mk.injEq _ _ _ _).mp he2.symm |>.2
    · exact absurd (List.mem_map.mpr ⟨(n, t'), hm2, by rw [← he1]⟩) hnd.1
    · exact absurd (List.mem_map.mpr ⟨(n, t), hm1, by rw [← he2]⟩) hnd.1
    · exact ih hnd.2 hm1 hm2

/-- C10: a loaded type record whose kind tag is none of the six known kinds
is omitted silently: it lands in no rendering group (so no content section
and no anchor is generated for it), the sidebar is identical to the sidebar
of the dictionary without the record, and the loader's warning log — the
only warning source — never mentions a file that parsed. -/
theorem C10_unknown_kind_omitted (queries types : List (String × Obj)) (n : String) (t : Obj)
    (hmem : (n, t) ∈ types) (hnd : (types.map Prod.fst).Nodup)
    (hk : ∀ k ∈ sixKinds, t.kind ≠ some k) :
    (∀ k ∈ sixKinds, n ∉ (grouped types k).map Prod.fst) ∧
    (∀ k ∈ sixKinds, grouped (types.filter (fun p => !(p.1 == n))) k = grouped types k) ∧
    sidebar_parts queries (types.filter (fun p => !(p.1 == n))) =
      sidebar_parts queries types ∧
    (∀ (listing : List String) (content : String → Option Value) (f : String),
        (content f).isSome = true → f ∉ load_warnings listing content) := by
  have hkey : ∀ k ∈ sixKinds, ∀ p ∈ types, (p.2.kind == some k) = true → p.1 ≠ n := by
    intro k hk6 p hp hkind he
    have hp' : (n, p.2) ∈ types := by
      rw [← he]
      exact hp
    have : p.2 = t := assoc_unique hnd hp' hmem
    rw [this] at hkind
    exact hk k hk6 (beq_iff_eq.mp hkind)
  have hgroups : ∀ k ∈ sixKinds, grouped (types.filter (fun p => !(p.1 == n))) k =
      grouped types k := by
    intro k hk6
    rw [grouped, grouped, List.filter_filter]
    refine List.filter_congr ?_
    intro p hp
    by_cases hkind : (p.2.kind == some k) = true
    · have hne : (p.1 == n) = false :=
        beq_eq_false_iff_ne.mpr (hkey k hk6 p hp hkind)
      simp [hkind, hne]
    · simp [Bool.eq_false_iff.mpr hkind]
  refine ⟨?_, hgroups, ?_, ?_⟩
  · intro k hk6 hmap
    obtain ⟨p, hp, hp1⟩ := List.mem_map.mp hmap
    have hpf := List.mem_filter.mp hp
    exact hkey k hk6 p hpf.1 hpf.2 hp1
  · rw [sidebar_parts, sidebar_parts,
      hgroups "OBJECT" (by decide), hgroups "INPUT_OBJECT" (by decide),
      hgroups "ENUM" (by decide), hgroups "SCALAR" (by decide),
      hgroups "INTERFACE" (by decide), hgroups "UNION" (by decide)]
  · intro listing content f hsome hwarn
    rw [load_warnings] at hwarn
    have hnone := (List.mem_filter.mp hwarn).2
    rw [Option.isNone_iff_eq_none] at hnone
    rw [hnone] at hsome
    simp at hsome

/-- A type record with an unknown kind tag, for the C10 witness. -/
def exWeirdObj : Obj := ⟨some "WEIRD", PyStrVal.absent, [], none, [], [], [], []⟩

/-- Witness for C10: removing the `WEIRD`-kinded record leaves the sidebar
byte-identical. -/
theorem C10_unknown_kind_omitted_witness :
    sidebar_parts [] ([("W", exWeirdObj)].filter (fun p => !(p.1 == "W"))) =
      sidebar_parts [] [("W", exWeirdObj)] :=
  (C10_unknown_kind_omitted [] [("W", exWeirdObj)] "W" exWeirdObj
    (by decide) (by decide) (by decide)).2.2.1

theorem charsLe_append_suffix (d : Char) (rest : List Char) (hd : d.toNat < 48) :
    ∀ (a b : List Char), (∀ c ∈ a, isAlnumChar c = true) →
      (∀ c ∈ b, isAlnumChar c = true) →
      charsLe (a ++ d :: rest) (b ++ d :: rest) = charsLe a b := by
  intro a
  induction a with
  | nil =>
    intro b _ hb
    cases b with
    | nil => simp [charsLe_refl]
    | cons y ys =>
      have hy := isAlnumChar_toNat (hb y (List.mem_cons_self y ys))
      simp only [List.nil_append, List.cons_append, charsLe]
      rw [if_pos (by omega)]
  | cons x xs ih =>
    intro b ha hb
    cases b with
    | nil =>
      have hx := isAlnumChar_toNat (ha x (List.mem_cons_self x xs))
      simp only [List.cons_append, List.nil_append, charsLe]
      rw [if_neg (by omega), if_pos (by omega)]
    | cons y ys =>
      simp only [List.cons_append, charsLe]
      by_cases h1 : x.toNat < y.toNat
      · rw [if_pos h1, if_pos h1]
      · rw [if_neg h1, if_neg h1]
        by_cases h2 : y.toNat < x.toNat
        · rw [if_pos h2, if_pos h2]
        · rw [if_neg h2, if_neg h2]
          exact ih ys (fun c hc => ha c (List.mem_cons_of_mem _ hc))
            (fun c hc => hb c (List.mem_cons_of_mem _ hc))

theorem strLe_append_json {a b : String} (ha : alnumName a = true)
    (hb : alnumName b = true) (h : strLe (a ++ ".json") (b ++ ".json")) : strLe a b := by
  rw [strLe] at h ⊢
  have h1 : (a ++ ".json").toList = a.toList ++ '.' :: "json".toList := by
    simp [String.toList, String.data_append]
  have h2 : (b ++ ".json").toList = b.toList ++ '.' :: "json".toList := by
    simp [String.toList, String.data_append]
  rw [h1, h2, charsLe_append_suffix '.' "json".toList (by decide) a.toList b.toList
    (alnumName_mem ha) (alnumName_mem hb)] at h
  exact h

theorem endsJson_good (stem : String) : endsJson (stem ++ ".json") = true := by
  rw [endsJson]
  have h : (stem ++ ".json").toList.reverse =
      ".json".toList.reverse ++ stem.toList.reverse := by
    simp [String.toList, String.data_append, List.reverse_append]
  rw [h, leadsWith_append]

theorem stripJsonExt_good (stem : String) (hs : alnumName stem = true) :
    stripJsonExt (stem ++ ".json") = stem := by
  apply stringToList_inj
  rw [stripJsonExt,
    pyReplace_eq_of_decomp (stem ++ ".json") ".json" "" '.' "json".toList rfl
      stem.toList []
      (by simp [String.toList, String.data_append])
      (fun c hc => isAlnumChar_ne_dot (alnumName_mem hs c hc))
      (fun c hc => by simp at hc)]
  simp

theorem pairwise_filterMap_of {α β : Type} {R : α → α → Prop} {S : β → β → Prop}
    {g : α → Option β} :
    ∀ {l : List α}, l.Pairwise R →
      (∀ a ∈ l, ∀ b ∈ l, R a b → ∀ x y, g a = some x → g b = some y → S x y) →
      (l.filterMap g).Pairwise S := by
  intro l
  induction l with
  | nil => intro _ _; simp
  | cons a l' ih =>
    intro hp hg
    rw [List.filterMap_cons]
    rcases hpc : g a with _ | x
    · exact ih hp.of_cons
        (fun u hu v hv => hg u (List.mem_cons_of_mem _ hu) v (List.mem_cons_of_mem _ hv))
    · refine List.Pairwise.cons ?_
        (ih hp.of_cons
          (fun u hu v hv => hg u (List.mem_cons_of_mem _ hu) v (List.mem_cons_of_mem _ hv)))
      intro y hy
      obtain ⟨b, hb, hgb⟩ := List.mem_filterMap.mp hy
      exact hg a (List.mem_cons_self _ _) b (List.mem_cons_of_mem _ hb)
        (List.rel_of_pairwise_cons hp hb) x y hpc hgb

/-- The loader's inputs are per-record files named `<name>.json` with an
alphanumeric record name — the documented shape of the two input folders. -/
def goodListing (listing : List String) : Prop :=
  ∀ f ∈ listing, ∃ stem, alnumName stem = true ∧ f = stem ++ ".json"

theorem load_records_sorted (listing : List String) (content : String → Option Obj)
    (hgood : goodListing listing) :
    (load_records listing content).Pairwise keyLe := by
  rw [load_records]
  have hfil : ((listing.insertionSort strLe).filter (fun f => endsJson f)).Pairwise strLe :=
    List.Pairwise.sublist (List.filter_sublist _) (List.sorted_insertionSort strLe listing)
  refine pairwise_filterMap_of hfil ?_
  intro a ha b hb hr x y hx hy
  have ha' : a ∈ listing :=
    (List.perm_insertionSort strLe listing).mem_iff.mp (List.mem_of_mem_filter ha)
  have hb' : b ∈ listing :=
    (List.perm_insertionSort strLe listing).mem_iff.mp (List.mem_of_mem_filter hb)
  obtain ⟨sa, hsa, rfl⟩ := hgood a ha'
  obtain ⟨sb, hsb, rfl⟩ := hgood b hb'
  have hx1 : x.1 = stripJsonExt (sa ++ ".json") := by
    rcases hca : content (sa ++ ".json") with _ | v
    · rw [hca] at hx
      exact Option.noConfusion hx
    · rw [hca] at hx
      rw [← Option.some.inj hx]
  have hy1 : y.1 = stripJsonExt (sb ++ ".json") := by
    rcases hcb : content (sb ++ ".json") with _ | v
    · rw [hcb] at hy
      exact Option.noConfusion hy
    · rw [hcb] at hy
      rw [← Option.some.inj hy]
  rw [keyLe, hx1, hy1, stripJsonExt_good sa hsa, stripJsonExt_good sb hsb]
  exact strLe_append_json hsa hsb hr

theorem insertionSort_eq_self {α : Type} (r : α → α → Prop) [DecidableRel r] :
    ∀ {l : List α}, l.Pairwise r → l.insertionSort r = l := by
  intro l
  induction l with
  | nil => intro _; rfl
  | cons a l' ih =>
    intro hp
    rw [List.insertionSort, ih hp.of_cons]
    cases l' with
    | nil => rfl
    | cons b t =>
      exact List.orderedInsert_of_le r t
        (List.rel_of_pairwise_cons hp (List.mem_cons_self b t))

/-- C4: for records loaded from per-record `.json` files with alphanumeric
names, the loaded query dictionary and every per-kind rendering group is in
ascending name order, and the assembled document equals the spec-side
assembly that renders in the fixed group order — queries, then object,
input-object, enum, scalar, interface, union — with every group explicitly
sorted by name; ordering never depends on the incidental enumeration order
of the input directories (the loader sorts). -/
theorem C4_document_order (qlist tlist : List String) (qc tc : String → Option Obj)
    (hq : goodListing qlist) (ht : goodListing tlist) :
    (load_records qlist qc).Pairwise keyLe ∧
    (∀ k, (grouped (load_records tlist tc) k).Pairwise keyLe) ∧
    build_html (load_records qlist qc) (load_records tlist tc) =
      assemble_spec (load_records qlist qc) (load_records tlist tc) := by
  have h1 := load_records_sorted qlist qc hq
  have h2 := load_records_sorted tlist tc ht
  have hg : ∀ k, (grouped (load_records tlist tc) k).Pairwise keyLe :=
    fun k => List.Pairwise.sublist (List.filter_sublist _) h2
  refine ⟨h1, hg, ?_⟩
  rw [build_html, assemble_spec]
  rw [sidebar_parts, spec_sidebar_parts, content_parts, spec_content_parts]
  rw [sortByName, insertionSort_eq_self keyLe h1]
  rw [sortByName, insertionSort_eq_self keyLe (hg "OBJECT")]
  rw [sortByName, insertionSort_eq_self keyLe (hg "INPUT_OBJECT")]
  rw [sortByName, insertionSort_eq_self keyLe (hg "ENUM")]
  rw [sortByName, insertionSort_eq_self keyLe (hg "SCALAR")]
  rw [sortByName, insertionSort_eq_self keyLe (hg "INTERFACE")]
  rw [sortByName, insertionSort_eq_self keyLe (hg "UNION")]

/-- Example record content for the C4 witness. -/
def exContent : String → Option Obj :=
  fun _ => some ⟨some "OBJECT", PyStrVal.absent, [], none, [], [], [], []⟩

/-- Witness for C4: a two-file directory enumerated out of order still
assembles to the explicitly sorted spec-side document. -/
theorem C4_document_order_witness :
    build_html (load_records ["b.json", "a.json"] exContent)
        (load_records ["b.json", "a.json"] exContent) =
      assemble_spec (load_records ["b.json", "a.json"] exContent)
        (load_records ["b.json", "a.json"] exContent) := by
  have hgood : goodListing ["b.json", "a.json"] := by
    intro f hf
    rcases List.mem_cons.mp hf with h | h
    · exact ⟨"b", by decide, by rw [h]; decide⟩
    · have h' : f = "a.json" := by simpa using h
      exact ⟨"a", by decide, by rw [h']; decide⟩
  exact (C4_document_order ["b.json", "a.json"] ["b.json", "a.json"]
    exContent exContent hgood hgood).2.2
